import Mathlib

/-!
Verification of the data pipeline of `src/app.py` (a Streamlit multi-chart
stock application).  The pure computations of the script — the VWAP band
calculator `calculate_vwap_bands`, the cached fetch `get_stock_data`, the
per-ticker batch loop of `main`, and the watchlist persistence helpers — are
shallowly embedded below.  Prices and volumes are embedded as exact rationals;
the float value NaN (which pandas uses for "missing") is embedded as `none` of
an `Option` type, and `numpy.sqrt` as `Real.sqrt`.
-/

/-- One OHLCV row of the price DataFrame returned by `yf.Ticker(...).history`
(columns `Open`, `High`, `Low`, `Close`, `Volume`; `Open` is spelt `opn`
because `open` is a Lean keyword).  All fields are assumed non-missing here:
rows with missing fields are handled by `RawBar` and `dropna` below. -/
structure Bar where
  opn : ℚ
  high : ℚ
  low : ℚ
  close : ℚ
  volume : ℚ
deriving DecidableEq, Repr

instance : Inhabited Bar := ⟨⟨0, 0, 0, 0, 0⟩⟩

/-- Column `typical_price = (High + Low + Close) / 3` (app.py line 74). -/
def typical_price (b : Bar) : ℚ := (b.high + b.low + b.close) / 3

/-- Column `price_volume = typical_price * Volume` (app.py line 77). -/
def price_volume (b : Bar) : ℚ := typical_price b * b.volume

/-- Value of a per-bar column at row index `i` (0 outside the frame; all
theorems restrict `i` to the frame). -/
def barCol (bars : List Bar) (f : Bar → ℚ) (i : ℕ) : ℚ := f (bars.getD i default)

/-- pandas `.rolling(window=p).sum()` applied to a NaN-free column: the value
at row `i` is the sum of the `p` entries ending at `i`, and is missing (NaN)
for the first `p - 1` rows (pandas default `min_periods = window`). -/
def rollingSum (f : ℕ → ℚ) (p i : ℕ) : Option ℚ :=
  if p ≤ i + 1 then some (∑ j ∈ Finset.range p, f (i + 1 - p + j)) else none

/-- pandas `.rolling(window=p).sum()` applied to a column that may contain NaN
(`none`): a NaN anywhere in the window makes the result NaN, because with the
default `min_periods = window` fewer than `p` non-NaN observations give NaN. -/
def rollingSumO (f : ℕ → Option ℚ) (p i : ℕ) : Option ℚ :=
  if p ≤ i + 1 ∧ ∀ j ∈ Finset.range p, (f (i + 1 - p + j)).isSome = true then
    some (∑ j ∈ Finset.range p, (f (i + 1 - p + j)).getD 0)
  else none

/-- `sum_pv = df['price_volume'].rolling(window=period).sum()` (app.py line 80). -/
def sum_pv (bars : List Bar) (p i : ℕ) : Option ℚ :=
  rollingSum (barCol bars price_volume) p i

/-- `sum_vol = df['Volume'].rolling(window=period).sum()` (app.py line 81). -/
def sum_vol (bars : List Bar) (p i : ℕ) : Option ℚ :=
  rollingSum (barCol bars (fun b => b.volume)) p i

/-- Column `vwap = sum_pv / sum_vol` (app.py line 82).  Float division `0 / 0`
(an all-zero-volume window, the only way `sum_vol` can vanish for the
non-negative volumes of real data, which forces `sum_pv = 0` too) yields NaN,
embedded as `none`. -/
def vwap (bars : List Bar) (p i : ℕ) : Option ℚ :=
  match sum_pv bars p i, sum_vol bars p i with
  | some spv, some sv => if sv = 0 then none else some (spv / sv)
  | _, _ => none

/-- Column `deviation = typical_price - vwap` (app.py line 85): each row's
deviation is taken from that row's own rolling `vwap`. -/
def deviation (bars : List Bar) (p i : ℕ) : Option ℚ :=
  (vwap bars p i).map (fun v => barCol bars typical_price i - v)

/-- Column `squared_dev = deviation ** 2` (app.py line 86). -/
def squared_dev (bars : List Bar) (p i : ℕ) : Option ℚ :=
  (deviation bars p i).map (fun d => d ^ 2)

/-- Column `weighted_squared_dev = squared_dev * Volume` (app.py line 89). -/
def weighted_squared_dev (bars : List Bar) (p i : ℕ) : Option ℚ :=
  (squared_dev bars p i).map (fun s => s * barCol bars (fun b => b.volume) i)

/-- Column `variance = weighted_squared_dev.rolling(period).sum() / sum_vol`
(app.py lines 90–91), with the same NaN conventions as `vwap`. -/
def variance (bars : List Bar) (p i : ℕ) : Option ℚ :=
  match rollingSumO (weighted_squared_dev bars p) p i, sum_vol bars p i with
  | some sw, some sv => if sv = 0 then none else some (sw / sv)
  | _, _ => none

/-- Column `std_dev = np.sqrt(variance)` (app.py line 92). -/
noncomputable def std_dev (bars : List Bar) (p i : ℕ) : Option ℝ :=
  (variance bars p i).map (fun q => Real.sqrt (q : ℝ))

/-- Column `vwap_upper_1 = vwap + std_dev` (app.py line 95); adding NaN to
anything gives NaN. -/
noncomputable def vwap_upper_1 (bars : List Bar) (p i : ℕ) : Option ℝ :=
  match vwap bars p i, std_dev bars p i with
  | some v, some s => some ((v : ℝ) + s)
  | _, _ => none

/-- Column `vwap_lower_1 = vwap - std_dev` (app.py line 96). -/
noncomputable def vwap_lower_1 (bars : List Bar) (p i : ℕ) : Option ℝ :=
  match vwap bars p i, std_dev bars p i with
  | some v, some s => some ((v : ℝ) - s)
  | _, _ => none

/-- Column `vwap_upper_2 = vwap + 2 * std_dev` (app.py line 97). -/
noncomputable def vwap_upper_2 (bars : List Bar) (p i : ℕ) : Option ℝ :=
  match vwap bars p i, std_dev bars p i with
  | some v, some s => some ((v : ℝ) + 2 * s)
  | _, _ => none

/-- Column `vwap_lower_2 = vwap - 2 * std_dev` (app.py line 98). -/
noncomputable def vwap_lower_2 (bars : List Bar) (p i : ℕ) : Option ℝ :=
  match vwap bars p i, std_dev bars p i with
  | some v, some s => some ((v : ℝ) - 2 * s)
  | _, _ => none

/-- A bar of the frame returned by `calculate_vwap_bands`, carrying the
banding columns the function adds.  A `none` field is a missing value: either
NaN, or a column the function never added (the short-input early return). -/
structure BandedBar where
  bar : Bar
  vwap : Option ℚ
  variance : Option ℚ
  std_dev : Option ℝ
  vwap_upper_1 : Option ℝ
  vwap_lower_1 : Option ℝ
  vwap_upper_2 : Option ℝ
  vwap_lower_2 : Option ℝ

/-- A bar with no banding columns attached at all. -/
def plainRow (b : Bar) : BandedBar :=
  ⟨b, none, none, none, none, none, none, none⟩

instance : Inhabited BandedBar := ⟨plainRow default⟩

/-- Row `i` of the banded frame: the input bar together with the values of the
added columns at index `i`. -/
noncomputable def mkBanded (bars : List Bar) (p i : ℕ) : BandedBar :=
  ⟨bars.getD i default, vwap bars p i, variance bars p i, std_dev bars p i,
    vwap_upper_1 bars p i, vwap_lower_1 bars p i,
    vwap_upper_2 bars p i, vwap_lower_2 bars p i⟩

/-- All rows of the banded frame. -/
noncomputable def bandRows (bars : List Bar) (p : ℕ) : List BandedBar :=
  (List.range bars.length).map (mkBanded bars p)

/-- `calculate_vwap_bands(df, period)` (app.py lines 68–100): when the frame
has fewer than `period` rows it is returned unchanged (no banding columns);
otherwise the banding columns are attached row by row. -/
noncomputable def calculate_vwap_bands (bars : List Bar) (p : ℕ) : List BandedBar :=
  if bars.length < p then bars.map plainRow else bandRows bars p

/-! Spec-side formulas, written from the specification's own words so that the
code-side columns above can be compared against them. -/

/-- Spec formula (§4.3 step 2): `vwap_i = Σ(tp_j · volume_j) / Σ(volume_j)`
for `j` in the window `[i-W+1, i]`, with `tp = (high + low + close) / 3`. -/
def vwapSpec (bars : List Bar) (W i : ℕ) : ℚ :=
  (∑ j ∈ Finset.Icc (i + 1 - W) i,
      ((bars.getD j default).high + (bars.getD j default).low
        + (bars.getD j default).close) / 3 * (bars.getD j default).volume)
  / ∑ j ∈ Finset.Icc (i + 1 - W) i, (bars.getD j default).volume

/-- The claim's variance formula (§4.3 step 3), in which every squared
deviation of window `i` is measured from the single window-end value
`vwap_i`: `variance_i = Σ(volume_j · (tp_j − vwap_i)²) / Σ(volume_j)`. -/
def varianceSpecEnd (bars : List Bar) (W i : ℕ) : ℚ :=
  (∑ j ∈ Finset.Icc (i + 1 - W) i,
      (bars.getD j default).volume
        * (((bars.getD j default).high + (bars.getD j default).low
              + (bars.getD j default).close) / 3 - vwapSpec bars W i) ^ 2)
  / ∑ j ∈ Finset.Icc (i + 1 - W) i, (bars.getD j default).volume

/-- The variance formula the code actually implements: each squared deviation
is measured from bar `j`'s own rolling vwap `vwap_j`. -/
def varianceSpecOwn (bars : List Bar) (W i : ℕ) : ℚ :=
  (∑ j ∈ Finset.Icc (i + 1 - W) i,
      (bars.getD j default).volume
        * (((bars.getD j default).high + (bars.getD j default).low
              + (bars.getD j default).close) / 3 - vwapSpec bars W j) ^ 2)
  / ∑ j ∈ Finset.Icc (i + 1 - W) i, (bars.getD j default).volume

/-! Bridging lemmas between the rolling-window sums of the code and the
interval sums of the spec. -/

lemma sum_Icc_window (g : ℕ → ℚ) (p i : ℕ) (hp : p ≤ i + 1) :
    (∑ j ∈ Finset.Icc (i + 1 - p) i, g j)
      = ∑ j ∈ Finset.range p, g (i + 1 - p + j) := by
  rw [← Nat.Ico_succ_right, Finset.sum_Ico_eq_sum_range]
  have h : i + 1 - (i + 1 - p) = p := by omega
  rw [h]

lemma windowVol_pos (bars : List Bar) (p i : ℕ)
    (hvol : ∀ b ∈ bars, 0 < b.volume) (hp : 1 ≤ p) (hi : i < bars.length) :
    0 < ∑ j ∈ Finset.Icc (i + 1 - p) i, (bars.getD j default).volume := by
  apply Finset.sum_pos
  · intro j hj
    have hj' : j < bars.length := by
      have := Finset.mem_Icc.mp hj
      omega
    rw [List.getD_eq_getElem bars default hj']
    exact hvol _ (List.getElem_mem hj')
  · exact ⟨i, Finset.mem_Icc.mpr (by omega)⟩

/-- Core lemma: wherever the window's volume sum is nonzero, the code's
rolling `vwap` column carries exactly the spec's window formula. -/
lemma vwap_eq_spec (bars : List Bar) (p i : ℕ) (hp : p ≤ i + 1)
    (hs : (∑ j ∈ Finset.Icc (i + 1 - p) i, (bars.getD j default).volume) ≠ 0) :
    vwap bars p i = some (vwapSpec bars p i) := by
  have hnum : (∑ j ∈ Finset.Icc (i + 1 - p) i,
        ((bars.getD j default).high + (bars.getD j default).low
          + (bars.getD j default).close) / 3 * (bars.getD j default).volume)
      = ∑ j ∈ Finset.range p, barCol bars price_volume (i + 1 - p + j) := by
    rw [sum_Icc_window _ p i hp]
    rfl
  have hden : (∑ j ∈ Finset.Icc (i + 1 - p) i, (bars.getD j default).volume)
      = ∑ j ∈ Finset.range p, barCol bars (fun b => b.volume) (i + 1 - p + j) := by
    rw [sum_Icc_window _ p i hp]
    rfl
  have hsv : (∑ j ∈ Finset.range p,
      barCol bars (fun b => b.volume) (i + 1 - p + j)) ≠ 0 := by
    rw [← hden]
    exact hs
  simp only [vwap, sum_pv, sum_vol, rollingSum, if_pos hp]
  simp only [hsv, if_false, vwapSpec, hnum, hden]

lemma calculate_vwap_bands_length (bars : List Bar) (p : ℕ) :
    (calculate_vwap_bands bars p).length = bars.length := by
  unfold calculate_vwap_bands bandRows
  split <;> simp

lemma getD_bandRows (bars : List Bar) (p i : ℕ) (hi : i < bars.length) :
    (bandRows bars p).getD i default = mkBanded bars p i := by
  unfold bandRows
  rw [List.getD_eq_getElem?_getD, List.getElem?_map, List.getElem?_range hi]
  rfl

lemma getD_map_plainRow (bars : List Bar) (i : ℕ) (hi : i < bars.length) :
    (bars.map plainRow).getD i default = plainRow (bars.getD i default) := by
  have hi' : i < (bars.map plainRow).length := by simpa using hi
  rw [List.getD_eq_getElem _ _ hi', List.getElem_map, List.getD_eq_getElem _ _ hi]

/-- C2: for every bar series and every window `W ≥ 1`, every bar at index
`< W-1` in the output of `calculate_vwap_bands` has null (missing) banding
fields; this also holds for every index of a series shorter than `W`, whose
bars all keep null banding fields (the frame is returned without the banding
columns). -/
theorem c2_short_history_null (bars : List Bar) (p i : ℕ) (hp : 1 ≤ p)
    (hcase : i < p - 1 ∨ bars.length < p) (hi : i < bars.length) :
    (calculate_vwap_bands bars p).length = bars.length ∧
    ((calculate_vwap_bands bars p).getD i default).bar = bars.getD i default ∧
    ((calculate_vwap_bands bars p).getD i default).vwap = none ∧
    ((calculate_vwap_bands bars p).getD i default).variance = none ∧
    ((calculate_vwap_bands bars p).getD i default).std_dev = none ∧
    ((calculate_vwap_bands bars p).getD i default).vwap_upper_1 = none ∧
    ((calculate_vwap_bands bars p).getD i default).vwap_lower_1 = none ∧
    ((calculate_vwap_bands bars p).getD i default).vwap_upper_2 = none ∧
    ((calculate_vwap_bands bars p).getD i default).vwap_lower_2 = none := by
  refine ⟨calculate_vwap_bands_length bars p, ?_⟩
  by_cases hlen : bars.length < p
  · unfold calculate_vwap_bands
    rw [if_pos hlen, getD_map_plainRow bars i hi]
    exact ⟨rfl, rfl, rfl, rfl, rfl, rfl, rfl, rfl⟩
  · have hip : i < p - 1 := hcase.resolve_right hlen
    have hnp : ¬ p ≤ i + 1 := by omega
    have hv : vwap bars p i = none := by
      simp [vwap, sum_pv, sum_vol, rollingSum, hnp]
    have hvar : variance bars p i = none := by
      simp [variance, rollingSumO, hnp]
    unfold calculate_vwap_bands
    rw [if_neg hlen, getD_bandRows bars p i hi]
    refine ⟨rfl, hv, hvar, ?_, ?_, ?_, ?_, ?_⟩
    · simp [mkBanded, std_dev, hvar]
    · simp [mkBanded, vwap_upper_1, hv]
    · simp [mkBanded, vwap_lower_1, hv]
    · simp [mkBanded, vwap_upper_2, hv]
    · simp [mkBanded, vwap_lower_2, hv]

/-- A three-bar series used as concrete input for witnesses. -/
def exBarsA : List Bar := [⟨3, 3, 3, 3, 1⟩, ⟨6, 6, 6, 6, 1⟩, ⟨6, 6, 6, 6, 1⟩]

/-- C2 witness: on a concrete three-bar series with window 3, the bar at
index 0 (< W-1 = 2) has a null vwap field. -/
theorem c2_witness :
    ((calculate_vwap_bands exBarsA 3).getD 0 default).vwap = none :=
  (c2_short_history_null exBarsA 3 0 (by decide) (Or.inl (by decide))
    (by decide)).2.2.1

/-- C3: for every bar series and window `W ≥ 1` whose window volume sum is
positive, at each index `i ≥ W-1` the computed `vwap` column of the output of
`calculate_vwap_bands` equals `Σ(tp_j · volume_j) / Σ(volume_j)` over the
window `[i-W+1, i]` with `tp = (high + low + close) / 3`, and the band columns
equal `vwap ± stdDev` and `vwap ± 2·stdDev` (elementwise, with missing values
propagating as in pandas). -/
theorem c3_vwap_formula_and_bands (bars : List Bar) (p i : ℕ) (hp : 1 ≤ p)
    (h2 : p - 1 ≤ i) (h3 : i < bars.length)
    (hs : 0 < ∑ j ∈ Finset.Icc (i + 1 - p) i, (bars.getD j default).volume) :
    ((calculate_vwap_bands bars p).getD i default).vwap
        = some (vwapSpec bars p i) ∧
    vwap_upper_1 bars p i
        = Option.map₂ (fun (v : ℚ) (s : ℝ) => (v : ℝ) + s)
            (vwap bars p i) (std_dev bars p i) ∧
    vwap_lower_1 bars p i
        = Option.map₂ (fun (v : ℚ) (s : ℝ) => (v : ℝ) - s)
            (vwap bars p i) (std_dev bars p i) ∧
    vwap_upper_2 bars p i
        = Option.map₂ (fun (v : ℚ) (s : ℝ) => (v : ℝ) + 2 * s)
            (vwap bars p i) (std_dev bars p i) ∧
    vwap_lower_2 bars p i
        = Option.map₂ (fun (v : ℚ) (s : ℝ) => (v : ℝ) - 2 * s)
            (vwap bars p i) (std_dev bars p i) := by
  have hlen : ¬ bars.length < p := by omega
  have hp1 : p ≤ i + 1 := by omega
  constructor
  · unfold calculate_vwap_bands
    rw [if_neg hlen, getD_bandRows bars p i h3]
    exact vwap_eq_spec bars p i hp1 hs.ne'
  refine ⟨?_, ?_, ?_, ?_⟩ <;>
    · cases hv : vwap bars p i <;> cases hstd : std_dev bars p i <;>
        simp [vwap_upper_1, vwap_lower_1, vwap_upper_2, vwap_lower_2,
          hv, hstd, Option.map₂]

/-- C3 witness: the theorem applied to a concrete two-bar series with
window 2 at index 1. -/
theorem c3_witness :
    ((calculate_vwap_bands exBarsA 2).getD 1 default).vwap
      = some (vwapSpec exBarsA 2 1) :=
  (c3_vwap_formula_and_bands exBarsA 2 1 (by decide) (by decide) (by decide)
    (by
      rw [show Finset.Icc (1 + 1 - 2) 1 = Finset.range 2 by rfl]
      simp [Finset.sum_range_succ, exBarsA])).1

/-- C1 counterexample: on the concrete series `exBarsA` with window `W = 2`,
at index `2 ≥ W-1` the code's `variance` column holds `9/8`, while the
claimed formula `Σ(volume_j · (tp_j − vwap_i)²) / Σ(volume_j)` (squared
deviations measured from the window-end `vwap_i`) gives `0`: the claim is
false at this input. -/
theorem c1_counterexample :
    variance exBarsA 2 2 = some (9 / 8) ∧
    varianceSpecEnd exBarsA 2 2 = 0 ∧
    variance exBarsA 2 2 ≠ some (varianceSpecEnd exBarsA 2 2) := by
  have hpv1 : sum_pv exBarsA 2 1 = some 9 := by
    simp only [sum_pv, rollingSum, if_pos (by norm_num : 2 ≤ 1 + 1)]
    rw [Finset.sum_range_succ, Finset.sum_range_succ, Finset.sum_range_zero]
    norm_num [barCol, price_volume, typical_price, exBarsA]
  have hpv2 : sum_pv exBarsA 2 2 = some 12 := by
    simp only [sum_pv, rollingSum, if_pos (by norm_num : 2 ≤ 2 + 1)]
    rw [Finset.sum_range_succ, Finset.sum_range_succ, Finset.sum_range_zero]
    norm_num [barCol, price_volume, typical_price, exBarsA]
  have hsv1 : sum_vol exBarsA 2 1 = some 2 := by
    simp only [sum_vol, rollingSum, if_pos (by norm_num : 2 ≤ 1 + 1)]
    rw [Finset.sum_range_succ, Finset.sum_range_succ, Finset.sum_range_zero]
    norm_num [barCol, exBarsA]
  have hsv2 : sum_vol exBarsA 2 2 = some 2 := by
    simp only [sum_vol, rollingSum, if_pos (by norm_num : 2 ≤ 2 + 1)]
    rw [Finset.sum_range_succ, Finset.sum_range_succ, Finset.sum_range_zero]
    norm_num [barCol, exBarsA]
  have hv1 : vwap exBarsA 2 1 = some (9 / 2) := by
    rw [vwap, hpv1, hsv1]
    norm_num
  have hv2 : vwap exBarsA 2 2 = some 6 := by
    rw [vwap, hpv2, hsv2]
    norm_num
  have hw1 : weighted_squared_dev exBarsA 2 1 = some (9 / 4) := by
    rw [weighted_squared_dev, squared_dev, deviation, hv1]
    norm_num [barCol, typical_price, exBarsA]
  have hw2 : weighted_squared_dev exBarsA 2 2 = some 0 := by
    rw [weighted_squared_dev, squared_dev, deviation, hv2]
    norm_num [barCol, typical_price, exBarsA]
  have hro : rollingSumO (weighted_squared_dev exBarsA 2) 2 2 = some (9 / 4) := by
    rw [rollingSumO, if_pos]
    · rw [Finset.sum_range_succ, Finset.sum_range_succ, Finset.sum_range_zero]
      norm_num [hw1, hw2]
    · refine ⟨by norm_num, ?_⟩
      intro j hj
      simp only [Finset.mem_range] at hj
      interval_cases j <;> norm_num [hw1, hw2]
  have hvarval : variance exBarsA 2 2 = some (9 / 8) := by
    rw [variance, hro, hsv2]
    norm_num
  have hvspec : vwapSpec exBarsA 2 2 = 6 := by
    rw [vwapSpec, sum_Icc_window _ 2 2 (by norm_num),
      sum_Icc_window _ 2 2 (by norm_num)]
    rw [Finset.sum_range_succ, Finset.sum_range_succ, Finset.sum_range_zero,
      Finset.sum_range_succ, Finset.sum_range_succ, Finset.sum_range_zero]
    norm_num [exBarsA]
  have hvarspec : varianceSpecEnd exBarsA 2 2 = 0 := by
    rw [varianceSpecEnd, sum_Icc_window _ 2 2 (by norm_num),
      sum_Icc_window _ 2 2 (by norm_num)]
    rw [Finset.sum_range_succ, Finset.sum_range_succ, Finset.sum_range_zero,
      Finset.sum_range_succ, Finset.sum_range_succ, Finset.sum_range_zero]
    rw [hvspec]
    norm_num [exBarsA]
  refine ⟨hvarval, hvarspec, ?_⟩
  rw [hvarval, hvarspec]
  norm_num

/-- C1 (amended): for a series of positively-traded bars and window `W ≥ 1`,
at each index `i ≥ 2·(W-1)` the band calculator's variance equals
`Σ(volume_j · (tp_j − vwap_j)²) / Σ(volume_j)` over the window `[i-W+1, i]`,
where each squared deviation is measured from bar `j`'s own rolling `vwap_j`
(not from the window-end `vwap_i`), and `stdDev_i = sqrt(variance_i)`; at
indices `W-1 ≤ i < 2·(W-1)` the variance and stdDev are null, because the
deviations of the first `W-1` bars are undefined and NaN propagates through
the rolling sum. -/
theorem c1_variance_uses_own_vwap (bars : List Bar) (p i : ℕ) (hp : 1 ≤ p)
    (hvol : ∀ b ∈ bars, 0 < b.volume) (hi : i < bars.length) :
    (2 * (p - 1) ≤ i →
      variance bars p i = some (varianceSpecOwn bars p i) ∧
      std_dev bars p i = some (Real.sqrt (varianceSpecOwn bars p i))) ∧
    (p - 1 ≤ i → i < 2 * (p - 1) →
      variance bars p i = none ∧ std_dev bars p i = none) := by
  constructor
  · intro h2i
    have hp1 : p ≤ i + 1 := by omega
    have hwsd : ∀ j ∈ Finset.range p,
        weighted_squared_dev bars p (i + 1 - p + j)
          = some ((barCol bars typical_price (i + 1 - p + j)
              - vwapSpec bars p (i + 1 - p + j)) ^ 2
              * barCol bars (fun b => b.volume) (i + 1 - p + j)) := by
      intro j hj
      have hj' : j < p := Finset.mem_range.mp hj
      have hk1 : p ≤ (i + 1 - p + j) + 1 := by omega
      have hk2 : i + 1 - p + j < bars.length := by omega
      have hv := vwap_eq_spec bars p (i + 1 - p + j) hk1
        (windowVol_pos bars p (i + 1 - p + j) hvol hp hk2).ne'
      rw [weighted_squared_dev, squared_dev, deviation, hv]
      rfl
    have hcond : p ≤ i + 1 ∧ ∀ j ∈ Finset.range p,
        (weighted_squared_dev bars p (i + 1 - p + j)).isSome = true :=
      ⟨hp1, fun j hj => by rw [hwsd j hj]; rfl⟩
    have hro : rollingSumO (weighted_squared_dev bars p) p i
        = some (∑ j ∈ Finset.range p,
            ((barCol bars typical_price (i + 1 - p + j)
              - vwapSpec bars p (i + 1 - p + j)) ^ 2
              * barCol bars (fun b => b.volume) (i + 1 - p + j))) := by
      rw [rollingSumO, if_pos hcond]
      congr 1
      refine Finset.sum_congr rfl (fun j hj => ?_)
      rw [hwsd j hj]
      rfl
    have hsv : sum_vol bars p i = some (∑ j ∈ Finset.range p,
        barCol bars (fun b => b.volume) (i + 1 - p + j)) := by
      simp only [sum_vol, rollingSum, if_pos hp1]
    have hden : (∑ j ∈ Finset.Icc (i + 1 - p) i, (bars.getD j default).volume)
        = ∑ j ∈ Finset.range p, barCol bars (fun b => b.volume) (i + 1 - p + j) := by
      rw [sum_Icc_window _ p i hp1]
      rfl
    have hpos := windowVol_pos bars p i hvol hp hi
    have hsv0 : (∑ j ∈ Finset.range p,
        barCol bars (fun b => b.volume) (i + 1 - p + j)) ≠ 0 := by
      rw [← hden]
      exact hpos.ne'
    have hvar : variance bars p i = some (varianceSpecOwn bars p i) := by
      simp only [variance, hro, hsv]
      rw [if_neg hsv0]
      rw [varianceSpecOwn, sum_Icc_window _ p i hp1, hden]
      congr 1
      congr 1
      refine Finset.sum_congr rfl (fun j hj => ?_)
      rw [mul_comm]
      rfl
    refine ⟨hvar, ?_⟩
    rw [std_dev, hvar]
    rfl
  · intro h1i h2i
    have hp1 : p ≤ i + 1 := by omega
    have ha : ¬ p ≤ (i + 1 - p + 0) + 1 := by omega
    have hnone : weighted_squared_dev bars p (i + 1 - p + 0) = none := by
      simp [weighted_squared_dev, squared_dev, deviation, vwap, sum_pv,
        sum_vol, rollingSum, ha]
    have hro : rollingSumO (weighted_squared_dev bars p) p i = none := by
      rw [rollingSumO, if_neg]
      intro hcond
      have h0 := hcond.2 0 (Finset.mem_range.mpr (by omega))
      rw [hnone] at h0
      simp at h0
    have hsv : sum_vol bars p i = some (∑ j ∈ Finset.range p,
        barCol bars (fun b => b.volume) (i + 1 - p + j)) := by
      simp only [sum_vol, rollingSum, if_pos hp1]
    have hvar : variance bars p i = none := by
      simp only [variance, hro, hsv]
    refine ⟨hvar, ?_⟩
    rw [std_dev, hvar]
    rfl

/-- C1 witness: the amended theorem applied to the concrete series
`exBarsA` with window 2 at index `2 = 2·(W-1)`. -/
theorem c1_witness :
    variance exBarsA 2 2 = some (varianceSpecOwn exBarsA 2 2) :=
  ((c1_variance_uses_own_vwap exBarsA 2 2 (by decide)
    (by decide) (by decide)).1 (by decide)).1

/-- A raw OHLCV row as fetched from the quote source, before cleaning: any
field may be missing (NaN, embedded as `none`). -/
structure RawBar where
  opn : Option ℚ
  high : Option ℚ
  low : Option ℚ
  close : Option ℚ
  volume : Option ℚ
deriving DecidableEq, Repr

/-- A row is complete when none of its fields is missing. -/
def rowComplete (r : RawBar) : Bool :=
  r.opn.isSome && r.high.isSome && r.low.isSome && r.close.isSome
    && r.volume.isSome

/-- `df = df.dropna()` (app.py line 112): pandas drops exactly the rows that
contain at least one missing (NaN) value. -/
def dropna (df : List RawBar) : List RawBar := df.filter rowComplete

/-- A complete raw row read back as a plain bar. -/
def toBar (r : RawBar) : Bar :=
  ⟨r.opn.getD 0, r.high.getD 0, r.low.getD 0, r.close.getD 0, r.volume.getD 0⟩

/-- Body of `get_stock_data` (app.py lines 104–119): the `yfinance` fetch is
abstracted as an `Except` value (`.error` embeds any exception raised inside
the `try` block).  An exception is caught and turned into the return value
`None`; an empty frame also returns `None`; otherwise the frame is cleaned
with `dropna` and handed to `calculate_vwap_bands` with the default window
`period = 20`. -/
noncomputable def get_stock_data_body (fetch : Except Unit (List RawBar)) :
    Option (List BandedBar) :=
  match fetch with
  | .error _ => none
  | .ok df => if df.isEmpty then none
              else some (calculate_vwap_bands ((dropna df).map toBar) 20)

/-- One memo entry of the `st.cache_data(ttl=300)` decorator on
`get_stock_data`: argument key `(ticker, period, interval)`, the cached
return value, and its expiry instant. -/
structure CacheEntry where
  key : String × String × String
  value : Option (List BandedBar)
  expiresAt : ℕ

/-- Lookup of a live cache entry: streamlit's `st.cache_data` returns the
memoized value while `now` is before the entry's expiry, and treats an
expired or absent entry as a miss. -/
def cacheLookup (cache : List CacheEntry) (k : String × String × String)
    (now : ℕ) : Option (Option (List BandedBar)) :=
  match cache.find? (fun e => decide (e.key = k ∧ now < e.expiresAt)) with
  | some e => some e.value
  | none => none

/-- `get_stock_data` as called through its `@st.cache_data(ttl=300)`
decorator (app.py line 102): on a live hit the memoized value is returned
and the body (hence the fetch) is not run; on a miss the body runs and its
return value — whatever it is, including the `None` produced when the fetch
raised — is stored with a 300-second time to live.  The `Bool` of the result
records whether the body was invoked. -/
noncomputable def get_stock_data (cache : List CacheEntry)
    (ticker period interval : String) (now : ℕ)
    (fetch : Except Unit (List RawBar)) :
    Option (List BandedBar) × Bool × List CacheEntry :=
  match cacheLookup cache (ticker, period, interval) now with
  | some v => (v, false, cache)
  | none =>
      let v := get_stock_data_body fetch
      (v, true, ⟨(ticker, period, interval), v, now + 300⟩ :: cache)

/-- C4 counterexample: starting from an empty cache, a call whose fetch fails
returns `None` to the caller (no failure is propagated), stores a cache entry
for the key all the same, and a second call for the same key within the TTL
window does not invoke the fetch again — refuting both that no entry is
stored on failure and that a subsequent request within the TTL fetches
again. -/
theorem c4_counterexample :
    (get_stock_data [] "7203.T" "3mo" "1d" 0 (.error ())).1 = none ∧
    (get_stock_data [] "7203.T" "3mo" "1d" 0 (.error ())).2.2
      = [⟨("7203.T", "3mo", "1d"), none, 300⟩] ∧
    (get_stock_data (get_stock_data [] "7203.T" "3mo" "1d" 0 (.error ())).2.2
      "7203.T" "3mo" "1d" 100 (.error ())).2.1 = false := by
  refine ⟨rfl, rfl, ?_⟩
  simp [get_stock_data, cacheLookup, get_stock_data_body, List.find?]

/-- C4 (amended): when the fetch fails on a cache miss, `get_stock_data`
catches the failure and returns `None` (an unavailable marker) instead of
propagating it, and this `None` result is cached like any other value; every
subsequent request for the same key within the 300-second TTL is served from
the cache without invoking the fetch again. -/
theorem c4_failure_cached (cache : List CacheEntry)
    (t per itv : String) (now : ℕ)
    (hmiss : cacheLookup cache (t, per, itv) now = none) :
    get_stock_data cache t per itv now (.error ())
      = (none, true, ⟨(t, per, itv), none, now + 300⟩ :: cache) ∧
    ∀ (now2 : ℕ) (fetch2 : Except Unit (List RawBar)), now2 < now + 300 →
      get_stock_data (⟨(t, per, itv), none, now + 300⟩ :: cache)
          t per itv now2 fetch2
        = (none, false, ⟨(t, per, itv), none, now + 300⟩ :: cache) := by
  constructor
  · rw [get_stock_data]
    simp only [hmiss]
    rfl
  · intro now2 fetch2 h2
    rw [get_stock_data]
    have hhit : cacheLookup (⟨(t, per, itv), none, now + 300⟩ :: cache)
        (t, per, itv) now2 = some none := by
      simp [cacheLookup, List.find?, h2]
    simp only [hhit]

/-- C4 witness: the amended theorem applied to the empty cache at time 0. -/
theorem c4_witness :
    get_stock_data [] "7203.T" "3mo" "1d" 0 (.error ())
      = (none, true, [⟨("7203.T", "3mo", "1d"), none, 300⟩]) :=
  (c4_failure_cached [] "7203.T" "3mo" "1d" 0 rfl).1

/-- A concrete fetched frame whose single row is complete but has volume 0
(a non-trading period with quoted prices). -/
def exRawZeroVol : List RawBar :=
  [⟨some 1, some 2, some 1, some 2, some 0⟩]

/-- C6 counterexample: `dropna` keeps the complete zero-volume row, so the
derived series handed to `calculate_vwap_bands` contains a bar with
`volume = 0` — refuting that zero-volume bars are excluded from all derived
series. -/
theorem c6_counterexample :
    (dropna exRawZeroVol).map toBar = [⟨1, 2, 1, 2, 0⟩] ∧
    (⟨1, 2, 1, 2, 0⟩ : Bar).volume = 0 ∧
    get_stock_data_body (.ok exRawZeroVol)
      = some (calculate_vwap_bands [⟨1, 2, 1, 2, 0⟩] 20) := by
  refine ⟨rfl, rfl, rfl⟩

/-- C6 (amended): the cleaning step of `get_stock_data` is `dropna`, which
removes exactly the rows containing a missing (NaN) field; a complete row is
retained regardless of its volume, so zero-volume bars are passed on to the
band calculation. -/
theorem c6_dropna_keeps_complete_rows (df : List RawBar) (r : RawBar) :
    r ∈ dropna df ↔ (r ∈ df ∧ rowComplete r = true) := by
  simp [dropna, List.mem_filter]

/-- One row of the instrument registry `stock_df` loaded by
`load_stock_data` (app.py lines 48–66): the zero-padded code and the display
name (the other columns play no role in the batch loop). -/
structure CatalogRow where
  code : String
  name : String
deriving DecidableEq, Repr

/-- Name resolution of the batch loop (app.py lines 509–513): the first
registry row whose code matches, falling back to the bare code. -/
def lookup_name (stock_df : List CatalogRow) (code : String) : String :=
  match stock_df.find? (fun r => r.code == code) with
  | some r => r.name
  | none => code

/-- Replace every non-overlapping occurrence of `pat` in the character list,
scanning left to right, with fuel bounding the recursion depth (each step
consumes at least one character, so a fuel equal to the input length is
enough). -/
def replaceAllAux (pat rep : List Char) : ℕ → List Char → List Char
  | 0, s => s
  | fuel + 1, s =>
    match s with
    | [] => []
    | c :: cs =>
      if pat ≠ [] ∧ pat.isPrefixOf s then
        rep ++ replaceAllAux pat rep fuel (s.drop pat.length)
      else c :: replaceAllAux pat rep fuel cs

/-- Python's `s.replace(pat, rep)` for a non-empty pattern: every
non-overlapping occurrence is replaced, left to right.  (`ticker.replace
('.T', '')` in app.py lines 493 and 508 strips the exchange suffix.) -/
def pyReplace (s pat rep : String) : String :=
  if pat = "" then s
  else ⟨replaceAllAux pat.data rep.data s.data.length s.data⟩

/-- One element of the `tickers_data` list built by `main`
(app.py lines 517–522).  The payload type is a parameter: the loop never
inspects the fetched data, which in the script is the banded frame
(`Option (List BandedBar)`) returned by `get_stock_data`, `none` marking a
failed or empty fetch. -/
structure TickerData (α : Type) where
  ticker : String
  name : String
  code : String
  data : Option α
deriving DecidableEq, Repr

/-- The per-ticker fetch loop of `main` (app.py lines 504–526): for each
selected ticker, in order, strip the `.T` suffix, resolve the display name,
fetch the data, and append one record — a ticker whose fetch failed
contributes its own record with `data = none` and does not stop the loop. -/
def fetch_ticker_data {α : Type} (stock_df : List CatalogRow)
    (fetch : String → Option α) (selected : List String) :
    List (TickerData α) :=
  selected.map (fun t =>
    { ticker := t
      name := lookup_name stock_df (pyReplace t ".T" "")
      code := pyReplace t ".T" ""
      data := fetch t })

/-- C5: for every batch of 1 to 12 tickers, the loop returns exactly one
result per input ticker, in input order, and each result's data is that
ticker's own fetch result — so one ticker's failure (`fetch t = none`) is
recorded only on its own record while every other ticker is still fetched
and recorded. -/
theorem c5_batch_order_and_independence {α : Type}
    (stock_df : List CatalogRow) (fetch : String → Option α)
    (selected : List String) (hlo : 1 ≤ selected.length)
    (hhi : selected.length ≤ 12) :
    (fetch_ticker_data stock_df fetch selected).length = selected.length ∧
    ∀ j (hj : j < selected.length),
      (fetch_ticker_data stock_df fetch selected).get? j
        = some { ticker := selected.get ⟨j, hj⟩
                 name := lookup_name stock_df
                   (pyReplace (selected.get ⟨j, hj⟩) ".T" "")
                 code := pyReplace (selected.get ⟨j, hj⟩) ".T" ""
                 data := fetch (selected.get ⟨j, hj⟩) } := by
  constructor
  · simp [fetch_ticker_data]
  · intro j hj
    unfold fetch_ticker_data
    rw [List.get?_eq_getElem?, List.getElem?_map, List.getElem?_eq_getElem hj]
    rfl

/-- A concrete two-row registry for the C5 witness. -/
def exCatalog : List CatalogRow := [⟨"7203", "TOYOTA"⟩, ⟨"6758", "SONY"⟩]

/-- A concrete fetch in which exactly the first ticker fails. -/
def exFetch : String → Option ℕ :=
  fun t => if t == "7203.T" then none else some 1

/-- C5 witness: the theorem applied to a concrete two-ticker batch in which
the first fetch fails: row 0 carries `none`, row 1 carries its own result. -/
theorem c5_witness :
    (fetch_ticker_data exCatalog exFetch ["7203.T", "6758.T"]).get? 0
      = some ⟨"7203.T", "TOYOTA", "7203", none⟩ ∧
    (fetch_ticker_data exCatalog exFetch ["7203.T", "6758.T"]).get? 1
      = some ⟨"6758.T", "SONY", "6758", some 1⟩ := by
  have h := c5_batch_order_and_independence exCatalog exFetch
    ["7203.T", "6758.T"] (by decide) (by decide)
  have h0 := h.2 0 (by decide)
  have h1 := h.2 1 (by decide)
  constructor
  · rw [h0]
    decide
  · rw [h1]
    decide

/-- The on-disk state the watchlist helpers touch: whether the `watchlists`
directory exists, and the JSON files under it, each parsed as the ticker
list it stores (keyed by watchlist name; the newest write for a name is the
visible file). -/
structure WatchFS where
  dirExists : Bool
  files : List (String × List String)
deriving DecidableEq, Repr

/-- `save_watchlist(name, tickers)` (app.py lines 283–288): create the
`watchlists` directory if it does not yet exist, then write
`watchlists/{name}.json` with the JSON dump of `tickers`, overwriting any
previous content for that name. -/
def save_watchlist (fs : WatchFS) (name : String) (tickers : List String) :
    WatchFS :=
  { dirExists := true, files := (name, tickers) :: fs.files }

/-- `load_watchlist(name)` (app.py lines 290–296): read and parse
`watchlists/{name}.json`; any failure — including the file simply not
existing — is swallowed by the bare `except`, which returns the empty
list. -/
def load_watchlist (fs : WatchFS) (name : String) : List String :=
  match fs.files.find? (fun e => e.1 == name) with
  | some e => e.2
  | none => []

/-- C8 counterexample: loading a watchlist name that has no stored record
silently returns the empty list — `load_watchlist` cannot fail at all, so it
does not fail with a NotFoundError as claimed. -/
theorem c8_counterexample :
    load_watchlist ⟨false, []⟩ "core" = [] := rfl

/-- C8 (amended): for every watchlist name that has no stored record,
loading that watchlist silently returns the default value `[]` (the bare
`except` swallows the missing-file error) rather than failing with a
NotFoundError. -/
theorem c8_missing_watchlist_returns_empty (fs : WatchFS) (name : String)
    (habsent : fs.files.find? (fun e => e.1 == name) = none) :
    load_watchlist fs name = [] := by
  rw [load_watchlist, habsent]

/-- C8 witness: the amended theorem applied to an empty store. -/
theorem c8_witness : load_watchlist ⟨true, []⟩ "mylist" = [] :=
  c8_missing_watchlist_returns_empty ⟨true, []⟩ "mylist" rfl

/-- C10: saving a watchlist and then loading the same name returns exactly
the members that were saved, and the save succeeds from any starting state —
in particular when the `watchlists` directory does not yet exist, because it
is created on demand (the directory exists after every save). -/
theorem c10_save_load_roundtrip (fs : WatchFS) (name : String)
    (tickers : List String) :
    load_watchlist (save_watchlist fs name tickers) name = tickers ∧
    (save_watchlist fs name tickers).dirExists = true := by
  constructor
  · rw [load_watchlist, save_watchlist]
    simp [List.find?]
  · rfl

/-- A Python DataFrame object as seen by a caller of `calculate_vwap_bands`:
its bar rows plus, when present, the banding columns that the function
assigns into it.  `derived = none` means the banding columns are absent. -/
structure PFrame where
  bars : List Bar
  derived : Option (List BandedBar)

/-- `calculate_vwap_bands(df, period)` with Python's object semantics made
explicit: the result is the pair (returned frame, state of the caller's
argument object after the call).  When `len(df) < period` the function
returns early and the argument is untouched; otherwise the column
assignments `df['vwap'] = ...` etc. mutate the argument in place and the
very same object is returned. -/
noncomputable def calculate_vwap_bands_call (df : PFrame) (p : ℕ) :
    PFrame × PFrame :=
  if df.bars.length < p then (df, df)
  else
    let out : PFrame := { bars := df.bars, derived := some (bandRows df.bars p) }
    (out, out)

/-- A one-bar frame without banding columns, for the C9 refutation. -/
def exFrame : PFrame := { bars := [⟨1, 2, 1, 2, 5⟩], derived := none }

/-- C9 counterexample: calling the band calculation with window 1 on a
concrete one-bar frame changes the caller's frame (banding columns appear on
the argument object itself), and the returned value is that same mutated
object rather than a separate value — refuting that the operation does not
mutate its input. -/
theorem c9_counterexample :
    (calculate_vwap_bands_call exFrame 1).2 ≠ exFrame ∧
    (calculate_vwap_bands_call exFrame 1).1
      = (calculate_vwap_bands_call exFrame 1).2 := by
  constructor
  · intro h
    have hd := congrArg PFrame.derived h
    have hd' : (calculate_vwap_bands_call exFrame 1).2.derived
        = some (bandRows exFrame.bars 1) := rfl
    rw [hd'] at hd
    simp [exFrame] at hd
  · rfl

/-- C9 (amended): the band calculation is deterministic but not free of
effects on its argument: when the series is shorter than the window the
input object is returned unchanged and unmutated, and otherwise the banding
columns are stored into the caller's frame in place, the returned frame
being that same object (same bars, banding columns attached), not a separate
value. -/
theorem c9_mutates_input_in_place (df : PFrame) (p : ℕ) :
    (df.bars.length < p → calculate_vwap_bands_call df p = (df, df)) ∧
    (p ≤ df.bars.length →
      (calculate_vwap_bands_call df p).1 = (calculate_vwap_bands_call df p).2 ∧
      (calculate_vwap_bands_call df p).2.bars = df.bars ∧
      (calculate_vwap_bands_call df p).2.derived
        = some (bandRows df.bars p)) := by
  constructor
  · intro h
    rw [calculate_vwap_bands_call, if_pos h]
  · intro h
    have h' : ¬ df.bars.length < p := by omega
    rw [calculate_vwap_bands_call, if_neg h']
    exact ⟨rfl, rfl, rfl⟩

/-- C9 witness: the amended theorem applied to the concrete one-bar frame
with window 1 (the mutating branch). -/
theorem c9_witness :
    (calculate_vwap_bands_call exFrame 1).2.derived
      = some (bandRows exFrame.bars 1) :=
  ((c9_mutates_input_in_place exFrame 1).2 (by decide)).2.2

/-- Modelled from the spec: `src/app.py` contains no resampler — the
requested interval is delegated verbatim to the external quote source
(`stock.history(period=period, interval=interval)`, line 107) — so the
Resampler of spec §4.2 is modelled here from the spec's words.  A timestamped
bar: the bar's instant in minutes since the epoch plus its OHLCV fields. -/
structure TBar where
  ts : ℕ
  opn : ℚ
  high : ℚ
  low : ℚ
  close : ℚ
  volume : ℚ
deriving DecidableEq, Repr

/-- Modelled from the spec: the fixed enumerated set of supported
granularities (§4.2): 5-minute, daily, weekly, monthly. -/
inductive BarInterval
  | m5
  | d1
  | w1
  | mo1
deriving DecidableEq, Repr

/-- Modelled from the spec: the width of one calendar bucket of each
granularity, in minutes (a month approximated as thirty days; only the
relative coarseness ordering of the widths matters to the claims). -/
def BarInterval.width : BarInterval → ℕ
  | .m5 => 5
  | .d1 => 1440
  | .w1 => 10080
  | .mo1 => 43200

/-- Modelled from the spec (§4.2): OHLCV aggregation of one non-empty bucket,
given its first bar (by timestamp) and the rest of the run: `open = first
bar's open`, `high = max(high)`, `low = min(low)`, `close = last bar's
close`, `volume = sum(volume)`; the bucket is stamped with its first bar's
instant. -/
def aggBucket (first : TBar) (run : List TBar) : TBar :=
  { ts := first.ts
    opn := first.opn
    high := (run.map (fun b => b.high)).foldl max first.high
    low := (run.map (fun b => b.low)).foldl min first.low
    close := (run.getLastD first).close
    volume := first.volume + (run.map (fun b => b.volume)).sum }

/-- Modelled from the spec (§4.2): partition a chronologically ordered bar
list into non-overlapping epoch-aligned buckets of width `w` (bars whose
timestamps fall in the same bucket `ts / w` are consecutive) and aggregate
each bucket; a bucket with no contributing bar is omitted. -/
def resampleBars (w : ℕ) : List TBar → List TBar
  | [] => []
  | x :: xs =>
    aggBucket x (xs.takeWhile (fun b => b.ts / w == x.ts / w))
      :: resampleBars w (xs.dropWhile (fun b => b.ts / w == x.ts / w))
termination_by l => l.length
decreasing_by
  simp only [List.length_cons]
  exact Nat.lt_succ_of_le (List.dropWhile_sublist _).length_le

/-- Modelled from the spec (§4.2): `resample(series, targetInterval)` buckets
the series at the target granularity and aggregates each bucket. -/
def resample (bars : List TBar) (target : BarInterval) : List TBar :=
  resampleBars target.width bars

lemma aggBucket_single (x : TBar) : aggBucket x [] = x := by
  simp [aggBucket]

/-- C7: for every series that is valid at its native interval (consecutive
bars at least one native bucket apart) and every supported target interval
equal to or finer than the native one (bucket width at most the native
width), resampling returns the series unchanged: no sub-interval detail is
fabricated. -/
theorem c7_resample_noop (native target : BarInterval) (bars : List TBar)
    (hfine : target.width ≤ native.width)
    (hsep : List.Chain' (fun a b => a.ts + native.width ≤ b.ts) bars) :
    resample bars target = bars := by
  unfold resample
  induction bars with
  | nil => rw [resampleBars]
  | cons x xs ih =>
    have hw : 0 < target.width := by cases target <;> simp [BarInterval.width]
    have hterm : ∀ z zs, xs = z :: zs →
        (z.ts / target.width == x.ts / target.width) = false := by
      intro z zs hxs
      subst hxs
      have hxz : x.ts + native.width ≤ z.ts := (List.chain'_cons.mp hsep).1
      have hlt : x.ts / target.width < z.ts / target.width := by
        have h1 : x.ts + target.width ≤ z.ts := by omega
        have h2 : (x.ts + target.width) / target.width ≤ z.ts / target.width :=
          Nat.div_le_div_right h1
        rw [Nat.add_div_right _ hw] at h2
        omega
      simp [Nat.ne_of_gt hlt]
    rw [resampleBars]
    have htake : xs.takeWhile
        (fun b => b.ts / target.width == x.ts / target.width) = [] := by
      cases xs with
      | nil => rfl
      | cons z zs =>
        rw [List.takeWhile_cons]
        rw [hterm z zs rfl]
        rfl
    have hdrop : xs.dropWhile
        (fun b => b.ts / target.width == x.ts / target.width) = xs := by
      cases xs with
      | nil => rfl
      | cons z zs =>
        rw [List.dropWhile_cons]
        rw [hterm z zs rfl]
        rfl
    rw [htake, hdrop, aggBucket_single]
    rw [ih (List.chain'_cons'.mp hsep).2]

/-- C7 witness: resampling a two-bar daily series to the finer five-minute
interval returns it unchanged. -/
theorem c7_witness :
    resample [⟨0, 1, 2, 1, 2, 5⟩, ⟨1440, 3, 4, 3, 4, 7⟩] BarInterval.m5
      = [⟨0, 1, 2, 1, 2, 5⟩, ⟨1440, 3, 4, 3, 4, 7⟩] :=
  c7_resample_noop BarInterval.d1 BarInterval.m5 _ (by decide)
    (List.chain'_cons.mpr
      ⟨by norm_num [BarInterval.width], List.chain'_singleton _⟩)
